import Mathlib

/-!
Verification development for the screenpipe recording supervisor
(src/screenpipe-server/src/bin/screenpipe-server.rs).

The definitions below are a shallow embedding of that file:
the device-control data model, the crossbeam `SegQueue` command bus as a
list-based FIFO queue, `initialize_audio_devices` and its delayed producer
tasks, the recording supervisor loop (both as a per-iteration function and
as a fine-grained interleaving transition system), and the startup control
flow of `main`.

`RecordingState` is declared in the `screenpipe_server` library crate whose
source is not part of this tree; only its `is_running` field and the calls
`new()`, `cancel()`, `reset()` appear in the binary. Its operations are
modelled from the spec where noted.
-/

/-- DeviceControl, mirroring the Rust struct used at lines 141-144 and
233-237 of screenpipe-server.rs: `{is_running: bool, is_paused: bool}`. -/
structure DeviceControl where
  is_running : Bool
  is_paused : Bool
deriving DecidableEq, Repr

/-- AudioDevice from the screenpipe_audio crate, treated as an opaque
identity with a human-readable name. -/
structure AudioDevice where
  name : String
deriving DecidableEq, Repr

/-- RecordingState. The field `is_running` is read and written directly by
the supervisor loop (lines 325, 331, 357). The cancellation capability is
modelled from the spec: "Recording State: shared mutable record
{is_running: bool} plus a cancellation capability". -/
structure RecordingState where
  is_running : Bool
  cancel_requested : Bool
deriving DecidableEq, Repr

/-- Modelled from the spec: `RecordingState::new()` (line 301) yields the
Idle state (is_running = false, no cancellation pending). -/
def RecordingState.new : RecordingState :=
  ⟨false, false⟩

/-- Modelled from the spec: `cancel()` (lines 367, 369) "idempotent; signals
the active engine to stop"; it sets the cancellation flag and leaves
`is_running` untouched. -/
def RecordingState.cancel (s : RecordingState) : RecordingState :=
  { s with cancel_requested := true }

/-- Modelled from the spec: `reset()` (line 379) "clears state back to Idle,
making the instance eligible for the next try_start()". -/
def RecordingState.reset (_s : RecordingState) : RecordingState :=
  ⟨false, false⟩

/-! ## The Device Control Bus (crossbeam SegQueue, line 227)

A `SegQueue` is an unbounded FIFO queue. We embed it as a list whose head is
the front of the queue: `push` appends at the back (total: it cannot fail or
block), `pop` removes the front. -/

/-- The bus: an unbounded FIFO queue, embedded as a list (front at head). -/
abbrev SegQueue (α : Type) : Type := List α

/-- SegQueue::new (line 227). -/
def SegQueue.empty (α : Type) : SegQueue α := []

/-- SegQueue::push (line 150): enqueue at the back. Total: never fails,
never blocks. -/
def SegQueue.push {α : Type} (q : SegQueue α) (e : α) : SegQueue α :=
  q ++ [e]

/-- SegQueue::pop: dequeue from the front, or `none` when empty. -/
def SegQueue.pop {α : Type} (q : SegQueue α) : Option (α × SegQueue α) :=
  match q with
  | [] => none
  | x :: xs => some (x, xs)

/-- Repeatedly pop (at most `fuel` times), returning elements in the order
the consumer observes them. -/
def SegQueue.drainAll {α : Type} : Nat → SegQueue α → List α
  | 0, _ => []
  | fuel + 1, q =>
    match SegQueue.pop q with
    | none => []
    | some (x, q2) => x :: SegQueue.drainAll fuel q2

/-- initialize_audio_devices (lines 134-153): for each device, a producer
task is spawned that sleeps 15 seconds and then pushes
`(device, DeviceControl {is_running: true, is_paused: false})` onto the bus.
The result lists, per device, the delay and the command the producer will
publish. -/
def initialize_audio_devices (audio_devices : List AudioDevice) :
    List (Nat × AudioDevice × DeviceControl) :=
  audio_devices.map (fun d => (15, d, ⟨true, false⟩))

/-! ## Timed semantics of the delayed producers (for delayed activation)

Each producer spawned by `initialize_audio_devices` sleeps a fixed 15
seconds (line 149) before pushing its command (line 150). The timed system
records, for every command on the bus, both the registration time of its
device and the time the push happened. -/

/-- A producer task spawned at `regTime`, which will publish
`(device, control)` no earlier than `regTime + 15`. -/
structure PendingCmd where
  regTime : Nat
  device : AudioDevice
  control : DeviceControl
deriving DecidableEq, Repr

/-- A command observable on the bus, tagged with the registration time of
its producer and the time it was published. -/
structure BusCmd where
  regTime : Nat
  pubTime : Nat
  device : AudioDevice
  control : DeviceControl
deriving DecidableEq, Repr

/-- The timed state: current time, producers still sleeping, and the bus
contents in FIFO order. -/
structure TimedSys where
  now : Nat
  pending : List PendingCmd
  bus : List BusCmd
deriving DecidableEq, Repr

/-- Steps of the timed system: registering a device for the current
iteration spawns its delayed producer (lines 148-151) with the fixed
activation command; time advances; a producer whose 15-second sleep has
elapsed fires, pushing its command onto the bus. -/
inductive TStep : TimedSys → TimedSys → Prop
  | register (s : TimedSys) (d : AudioDevice) :
      TStep s ⟨s.now, ⟨s.now, d, ⟨true, false⟩⟩ :: s.pending, s.bus⟩
  | tick (s : TimedSys) (k : Nat) :
      TStep s ⟨s.now + k, s.pending, s.bus⟩
  | fire (s : TimedSys) (p : PendingCmd) (pre post : List PendingCmd) :
      s.pending = pre ++ p :: post →
      p.regTime + 15 ≤ s.now →
      TStep s ⟨s.now, pre ++ post, s.bus ++ [⟨p.regTime, s.now, p.device, p.control⟩]⟩

/-- Timed states reachable from an empty system started at time `t0`. -/
def TReach (t0 : Nat) (s : TimedSys) : Prop :=
  Relation.ReflTransGen TStep ⟨t0, [], []⟩ s

/-! ## The recording supervisor loop, per-iteration view (lines 309-384)

One pass of the `loop` inside the `_start_recording` task, as a pure
function of the current `RecordingState` and of the outcome of the
`tokio::select!` race (engine completion, possibly with an error, versus a
restart signal). Observable effects are recorded as an action list in
program order. -/

/-- The outcome of the select race of lines 360-371 for one iteration:
either the recording task completed (with or without a reported error), or
a restart signal was received first. -/
inductive RaceResult
  | engineDone (err : Bool)
  | restartSignal
deriving DecidableEq, Repr

/-- Observable actions of one supervisor loop pass, in program order. -/
inductive IterAction
  | warnBusy
  | sleepSecs (n : Nat)
  | scheduleProducers (n : Nat)
  | spawnEngine
  | logEngineError
  | clearRunning
  | logTaskEnded
  | logRestart
  | cancelState
  | resetState
deriving DecidableEq, Repr

/-- One pass of the supervisor loop (lines 323-380), with `numDevices`
audio devices configured:
if `is_running` is already true, warn, sleep 30 seconds and continue with
the state unchanged (lines 325-330); otherwise set `is_running := true`
(line 331), call `initialize_audio_devices` (line 335), spawn the recording
task (line 337), then race it against the restart receiver (lines 360-371):
on completion the task logs any error (line 353) and clears `is_running`
(line 357), and the select arm logs that the task ended (line 362); on a
restart signal the supervisor logs and calls `cancel()` twice (lines
365-369). In either case `reset()` then runs unconditionally (lines
377-380). -/
def runIteration (s : RecordingState) (race : RaceResult) (numDevices : Nat) :
    RecordingState × List IterAction :=
  if s.is_running then
    (s, [.warnBusy, .sleepSecs 30])
  else
    let s1 : RecordingState := { s with is_running := true }
    match race with
    | .engineDone err =>
      let s2 : RecordingState := { s1 with is_running := false }
      (s2.reset,
        [.scheduleProducers numDevices, .spawnEngine]
          ++ (if err then [IterAction.logEngineError] else [])
          ++ [.clearRunning, .logTaskEnded, .resetState])
    | .restartSignal =>
      ((s1.cancel.cancel).reset,
        [.scheduleProducers numDevices, .spawnEngine, .logRestart,
          .cancelState, .cancelState, .resetState])

/-- The supervisor loop run over a finite prefix of race outcomes, one per
pass (the real loop at line 310 never terminates; a list element supplies
the environment of one pass). -/
def runLoop : RecordingState → List RaceResult → Nat → RecordingState × List IterAction
  | s, [], _ => (s, [])
  | s, race :: races, numDevices =>
    let step := runIteration s race numDevices
    let rest := runLoop step.1 races numDevices
    (rest.1, step.2 ++ rest.2)

/-! ## The supervisor as an interleaving transition system

The per-iteration function above fixes the race outcome up front; the
transition system below instead exposes every intermediate state of the
loop body, together with the concurrently running engine tasks, so that
properties about what other tasks can observe between two supervisor steps
can be settled.

Ghost bookkeeping: `curSpawned`/`curCompleted`/`curCancelled` describe the
recording task of the current iteration; `cleared` records whether
`is_running` has been written false since the last successful start check;
`zombies` lists recording tasks of earlier iterations that are still
running (one flag each: whether that task was cancelled), created when an
iteration ends in `reset()` while its task has not completed — the select
at line 360 drops the join handle on the restart arm, and the timeout wait
at line 374 is commented out, so such a task keeps running. -/

/-- Program points of the supervisor loop body (lines 323-380). -/
inductive SupPC
  | atTop
  | afterStart
  | afterSpawn
  | afterSelect
deriving DecidableEq, Repr

/-- Global state: supervisor program point, the shared `RecordingState`,
ghost flags for the current iteration's recording task, the `cleared`
history flag, and the still-running tasks of earlier iterations. -/
structure Sys where
  pc : SupPC
  rs : RecordingState
  curSpawned : Bool
  curCompleted : Bool
  curCancelled : Bool
  cleared : Bool
  zombies : List Bool
deriving DecidableEq, Repr

/-- The initial state: loop top, fresh `RecordingState` (line 301), no
tasks. -/
def Sys.init : Sys :=
  ⟨.atTop, RecordingState.new, false, false, false, true, []⟩

/-- Labels of the transition system. -/
inductive SupLabel
  | busyWait
  | startSuccess
  | spawnTask
  | selectDone (err : Bool)
  | selectRestart
  | curComplete
  | zombieComplete
  | resetDone
deriving DecidableEq, Repr

/-- Small-step semantics of the supervisor loop body interleaved with its
recording tasks.
`busy`: lines 325-330, the lock-guarded check finds `is_running` true.
`start`: lines 325-331, the check finds it false and flips it to true.
`spawnTask`: lines 335-337, device producers scheduled, recording task
spawned.
`selectDone`: lines 352-362, the recording task finishes (logging any
error), clears `is_running` under the lock, and the select takes the
completion arm.
`selectRestart`: lines 364-370, a restart signal wins the race and
`cancel()` is called twice.
`curComplete`: the current (cancelled) recording task finishes after the
select but before the next loop pass, clearing `is_running`.
`zombie`: a still-running task of an earlier iteration finishes at an
arbitrary point, clearing `is_running` (line 356-357 of its own body).
`reset`: lines 377-380, `reset()` runs unconditionally; a current task that
has not completed lives on as a zombie. -/
inductive SupStep : Sys → SupLabel → Sys → Prop
  | busy (s : Sys) :
      s.pc = .atTop → s.rs.is_running = true →
      SupStep s .busyWait s
  | start (s : Sys) :
      s.pc = .atTop → s.rs.is_running = false →
      SupStep s .startSuccess
        { s with
            pc := .afterStart
            rs := { s.rs with is_running := true }
            curSpawned := false
            curCompleted := false
            curCancelled := false
            cleared := false }
  | spawnTask (s : Sys) :
      s.pc = .afterStart →
      SupStep s .spawnTask { s with pc := .afterSpawn, curSpawned := true }
  | selectDone (s : Sys) (err : Bool) :
      s.pc = .afterSpawn → s.curCompleted = false →
      SupStep s (.selectDone err)
        { s with
            pc := .afterSelect
            curCompleted := true
            rs := { s.rs with is_running := false }
            cleared := true }
  | selectRestart (s : Sys) :
      s.pc = .afterSpawn →
      SupStep s .selectRestart
        { s with
            pc := .afterSelect
            curCancelled := true
            rs := s.rs.cancel.cancel }
  | curComplete (s : Sys) :
      s.pc = .afterSelect → s.curSpawned = true → s.curCompleted = false →
      SupStep s .curComplete
        { s with
            curCompleted := true
            rs := { s.rs with is_running := false }
            cleared := true }
  | zombie (s : Sys) (b : Bool) (pre post : List Bool) :
      s.zombies = pre ++ b :: post →
      SupStep s .zombieComplete
        { s with
            zombies := pre ++ post
            rs := { s.rs with is_running := false }
            cleared := true }
  | reset (s : Sys) :
      s.pc = .afterSelect →
      SupStep s .resetDone
        { s with
            pc := .atTop
            rs := s.rs.reset
            cleared := true
            zombies :=
              (if s.curSpawned = true ∧ s.curCompleted = false
                then [s.curCancelled] else []) ++ s.zombies }

/-- Some step with any label. -/
def SupStepAny (s t : Sys) : Prop := ∃ l, SupStep s l t

/-- States reachable from the initial state. -/
def Reachable (s : Sys) : Prop :=
  Relation.ReflTransGen SupStepAny Sys.init s

/-- A labelled run of the transition system. -/
inductive SupRun : Sys → List SupLabel → Sys → Prop
  | nil (s : Sys) : SupRun s [] s
  | cons {s t u : Sys} {l : SupLabel} {ls : List SupLabel} :
      SupStep s l t → SupRun t ls u → SupRun s (l :: ls) u

/-- The number of engine (recording) tasks that have been spawned and have
not yet finished: still-running tasks of earlier iterations plus the
current iteration's task when it is live. -/
def liveEngines (s : Sys) : Nat :=
  s.zombies.length +
    (if s.curSpawned = true ∧ s.curCompleted = false then 1 else 0)

/-! ## Startup control flow of main (lines 155-437)

The environment facts `main` depends on (is ffmpeg on the PATH, can the
base data directory be created, ...) are captured as booleans; `mainModel`
replays the straight-line startup control flow of `main` on them, recording
which long-lived components are started. -/

/-- Environment facts of one invocation, in the order `main` consults them:
`find_ffmpeg_path()` (line 157), `get_base_dir` (lines 122-132 via 184),
log-file creation (lines 186-190), `list_audio_devices()` (line 215),
`parse_audio_device` for explicitly selected devices (line 271), and
`DatabaseManager::new` (lines 287-294). -/
structure Env where
  ffmpeg_present : Bool
  base_dir_ok : Bool
  log_file_ok : Bool
  list_devices_ok : Bool
  parse_devices_ok : Bool
  db_init_ok : Bool
deriving DecidableEq, Repr

/-- The CLI flags that steer the startup control flow. -/
structure CliModel where
  list_audio_devices : Bool
  disable_audio : Bool
  audio_device : List String
deriving DecidableEq, Repr

/-- How the modelled `main` ends. -/
inductive MainOutcome
  | exitFfmpeg
  | errBaseDir
  | panicLogFile
  | errListDevices
  | listedDevices
  | panicParseDevice
  | errDbInit
  | running
deriving DecidableEq, Repr

/-- Milestones of `main`, in program order: the device listing printed by
the `--list_audio_devices` branch (lines 218-221), the resource monitor
start (line 285), the supervisor loop spawn (line 309), the HTTP server
spawn (line 386), and a device control command published on the bus (only
ever done by the producers of `initialize_audio_devices`, inside the
loop). -/
inductive MainAction
  | printDevices
  | monitorStart
  | loopStart
  | serverStart
  | publishDeviceCommand
deriving DecidableEq, Repr

/-- Straight-line startup control flow of `main` (lines 155-437):
exit if ffmpeg is missing (lines 157-160); propagate a `get_base_dir`
error (line 184); panic if the log file cannot be created (line 190);
propagate a `list_audio_devices()` error (line 215); print the devices and
return `Ok(())` when `--list_audio_devices` is set (lines 217-223); panic
when an explicitly selected audio device fails to parse (line 271); start
the resource monitor (lines 282-285); propagate a database initialization
error (lines 287-294); then spawn the supervisor loop (line 309) and the
server (line 386) and keep running. -/
def mainModel (env : Env) (cli : CliModel) : MainOutcome × List MainAction :=
  if env.ffmpeg_present = false then (.exitFfmpeg, [])
  else if env.base_dir_ok = false then (.errBaseDir, [])
  else if env.log_file_ok = false then (.panicLogFile, [])
  else if env.list_devices_ok = false then (.errListDevices, [])
  else if cli.list_audio_devices = true then (.listedDevices, [.printDevices])
  else if cli.disable_audio = false ∧ cli.audio_device.isEmpty = false
      ∧ env.parse_devices_ok = false then (.panicParseDevice, [])
  else if env.db_init_ok = false then (.errDbInit, [.monitorStart])
  else (.running, [.monitorStart, .loopStart, .serverStart])

/-! ## Lemmas -/

/-- Draining pops the queue front-to-back: with enough fuel the consumer
observes exactly the queue contents in order. -/
theorem SegQueue.drainAll_eq_take {α : Type} :
    ∀ (fuel : Nat) (q : SegQueue α), SegQueue.drainAll fuel q = q.take fuel := by
  intro fuel
  induction fuel with
  | zero => intro q; rfl
  | succ n ih =>
    intro q
    cases q with
    | nil => rfl
    | cons x xs => simp [SegQueue.drainAll, SegQueue.pop, ih]

/-- Pushing a sequence of commands appends them in publication order. -/
theorem SegQueue.foldl_push {α : Type} :
    ∀ (ps : List α) (q : SegQueue α), ps.foldl SegQueue.push q = q ++ ps := by
  intro ps
  induction ps with
  | nil => intro q; simp
  | cons p rest ih => intro q; simp [SegQueue.push, ih]

/-- C6: publishing onto the Device Control Bus enqueues without blocking or
failing (`push` is total, keeps the element, and grows the queue by one),
and a consumer draining the bus observes the commands in publication order;
in particular, for any single device, commands published earlier are
observed earlier (FIFO per device). -/
theorem push_fifo_per_device (ps : List (AudioDevice × DeviceControl)) :
    (∀ (q : SegQueue (AudioDevice × DeviceControl)) (e : AudioDevice × DeviceControl),
        e ∈ SegQueue.push q e ∧ (SegQueue.push q e).length = q.length + 1)
    ∧ SegQueue.drainAll ps.length
        (ps.foldl SegQueue.push (SegQueue.empty (AudioDevice × DeviceControl))) = ps
    ∧ ∀ d : AudioDevice,
        (SegQueue.drainAll ps.length
            (ps.foldl SegQueue.push (SegQueue.empty (AudioDevice × DeviceControl)))).filter
          (fun e => e.1 == d)
        = ps.filter (fun e => e.1 == d) := by
  have hdrain : SegQueue.drainAll ps.length
      (ps.foldl SegQueue.push (SegQueue.empty (AudioDevice × DeviceControl))) = ps := by
    rw [SegQueue.foldl_push, SegQueue.drainAll_eq_take]
    simp [SegQueue.empty]
  refine ⟨?_, hdrain, ?_⟩
  · intro q e
    constructor
    · simp [SegQueue.push]
    · simp [SegQueue.push]
  · intro d
    rw [hdrain]

/-- C7: a device registered at time T has its activation command invisible
on the bus before T + 15: in every reachable timed state, every command on
the bus was published at least 15 seconds after its device was
registered. -/
theorem delayed_activation (t0 : Nat) (s : TimedSys) (h : TReach t0 s) :
    ∀ e ∈ s.bus, e.regTime + 15 ≤ e.pubTime := by
  induction h with
  | refl => intro e he; simp at he
  | tail _ hstep ih =>
    cases hstep with
    | register d => intro e he; exact ih e he
    | tick k => intro e he; exact ih e he
    | fire p pre post hp hle =>
      intro e he
      simp only [List.mem_append, List.mem_singleton] at he
      rcases he with he | he
      · exact ih e he
      · subst he; exact hle

/-- A device used in concrete runs. -/
def sampleDevice : AudioDevice := ⟨"default input"⟩

/-- A concrete timed run: the device is registered at time 0, time advances
to 15, the producer fires. -/
def firedSys : TimedSys := ⟨15, [], [⟨0, 15, sampleDevice, ⟨true, false⟩⟩]⟩

/-- The concrete run reaching `firedSys` from time 0. -/
theorem firedSys_reachable : TReach 0 firedSys := by
  have h1 : TStep ⟨0, [], []⟩ ⟨0, [⟨0, sampleDevice, ⟨true, false⟩⟩], []⟩ :=
    TStep.register ⟨0, [], []⟩ sampleDevice
  have h2 : TStep ⟨0, [⟨0, sampleDevice, ⟨true, false⟩⟩], []⟩
      ⟨15, [⟨0, sampleDevice, ⟨true, false⟩⟩], []⟩ :=
    TStep.tick ⟨0, [⟨0, sampleDevice, ⟨true, false⟩⟩], []⟩ 15
  have h3 : TStep ⟨15, [⟨0, sampleDevice, ⟨true, false⟩⟩], []⟩ firedSys :=
    TStep.fire ⟨15, [⟨0, sampleDevice, ⟨true, false⟩⟩], []⟩
      ⟨0, sampleDevice, ⟨true, false⟩⟩ [] [] rfl (by decide)
  exact ((Relation.ReflTransGen.refl.tail h1).tail h2).tail h3

/-- Witness for the delayed-activation theorem at the concrete run. -/
theorem delayed_activation_witness :
    BusCmd.regTime ⟨0, 15, sampleDevice, ⟨true, false⟩⟩ + 15
      ≤ BusCmd.pubTime ⟨0, 15, sampleDevice, ⟨true, false⟩⟩ :=
  delayed_activation 0 firedSys firedSys_reachable
    ⟨0, 15, sampleDevice, ⟨true, false⟩⟩ (by simp [firedSys])

/-- C10: every command the per-device producers of
`initialize_audio_devices` publish carries the control value
`{is_running: true, is_paused: false}`; no stop or pause command is ever
published by the supervisor core. -/
theorem producers_only_activate (ds : List AudioDevice)
    (e : Nat × AudioDevice × DeviceControl) (he : e ∈ initialize_audio_devices ds) :
    e.2.2.is_running = true ∧ e.2.2.is_paused = false := by
  simp only [initialize_audio_devices, List.mem_map] at he
  obtain ⟨d, _, rfl⟩ := he
  exact ⟨rfl, rfl⟩

/-- Witness for `producers_only_activate` at a concrete device list. -/
theorem producers_only_activate_witness :
    ((15, sampleDevice, ⟨true, false⟩) : Nat × AudioDevice × DeviceControl).2.2.is_running
      = true :=
  (producers_only_activate [sampleDevice] (15, sampleDevice, ⟨true, false⟩)
    (by simp [initialize_audio_devices])).1

/-- C8: a missing ffmpeg, an unresolvable base data directory, or a failed
database initialization each abort `main` before the supervisor loop is
spawned, and the loop is only ever spawned when all three have succeeded —
so none of these failure modes can occur once the loop is iterating. -/
theorem startup_failures_abort_before_loop (env : Env) (cli : CliModel) :
    (env.ffmpeg_present = false →
        (mainModel env cli).1 = .exitFfmpeg
        ∧ MainAction.loopStart ∉ (mainModel env cli).2)
    ∧ (env.ffmpeg_present = true → env.base_dir_ok = false →
        (mainModel env cli).1 = .errBaseDir
        ∧ MainAction.loopStart ∉ (mainModel env cli).2)
    ∧ (env.db_init_ok = false → MainAction.loopStart ∉ (mainModel env cli).2)
    ∧ (MainAction.loopStart ∈ (mainModel env cli).2 →
        env.ffmpeg_present = true ∧ env.base_dir_ok = true ∧ env.db_init_ok = true
        ∧ (mainModel env cli).1 = .running) := by
  unfold mainModel
  split_ifs <;> simp_all

/-- Witness for the startup-abort theorem: with ffmpeg absent, `main`
exits without spawning the loop. -/
theorem startup_failures_abort_before_loop_witness :
    (mainModel ⟨false, true, true, true, true, true⟩ ⟨false, false, []⟩).1 = .exitFfmpeg
    ∧ MainAction.loopStart
      ∉ (mainModel ⟨false, true, true, true, true, true⟩ ⟨false, false, []⟩).2 :=
  (startup_failures_abort_before_loop ⟨false, true, true, true, true, true⟩
    ⟨false, false, []⟩).1 rfl

/-- C9: with `--list_audio_devices` set (and startup up to the device
enumeration succeeding), `main` prints the devices and returns success
immediately: the resource monitor, the supervisor loop, the capture engine
and the server are never started, and no device control command is
published. -/
theorem list_devices_early_return (env : Env) (cli : CliModel)
    (h1 : env.ffmpeg_present = true) (h2 : env.base_dir_ok = true)
    (h3 : env.log_file_ok = true) (h4 : env.list_devices_ok = true)
    (h5 : cli.list_audio_devices = true) :
    mainModel env cli = (.listedDevices, [.printDevices])
    ∧ MainAction.monitorStart ∉ (mainModel env cli).2
    ∧ MainAction.loopStart ∉ (mainModel env cli).2
    ∧ MainAction.serverStart ∉ (mainModel env cli).2
    ∧ MainAction.publishDeviceCommand ∉ (mainModel env cli).2 := by
  simp [mainModel, h1, h2, h3, h4, h5]

/-- Witness for the early-return theorem at a concrete invocation. -/
theorem list_devices_early_return_witness :
    mainModel ⟨true, true, true, true, true, true⟩ ⟨true, false, []⟩
      = (.listedDevices, [.printDevices]) :=
  (list_devices_early_return ⟨true, true, true, true, true, true⟩ ⟨true, false, []⟩
    rfl rfl rfl rfl rfl).1

/-- Occurrences of an action in an action list. -/
def countIterAction (a : IterAction) : List IterAction → Nat
  | [] => 0
  | b :: rest => (if b = a then 1 else 0) + countIterAction a rest

/-- C3: every supervisor loop pass that reaches the select race (that is,
whose start attempt succeeded) performs `reset()` exactly once before the
next pass begins, whether the recording task completed (with or without an
error) or a restart signal won the race. -/
theorem reset_called_exactly_once (s : RecordingState) (race : RaceResult)
    (numDevices : Nat) (h : s.is_running = false) :
    countIterAction .resetState (runIteration s race numDevices).2 = 1 := by
  cases race with
  | engineDone err => cases err <;> simp [runIteration, h, countIterAction]
  | restartSignal => simp [runIteration, h, countIterAction]

/-- Witness for `reset_called_exactly_once` on a fresh state with a restart
race outcome. -/
theorem reset_called_exactly_once_witness :
    countIterAction .resetState
      (runIteration RecordingState.new .restartSignal 1).2 = 1 :=
  reset_called_exactly_once RecordingState.new .restartSignal 1 rfl

/-- C4: when the start attempt finds the state already running, the pass
leaves the state untouched, spawns no engine task, only warns and sleeps
30 seconds, and the loop goes on to retry: the busy condition is never
fatal. -/
theorem busy_backoff_and_retry (s : RecordingState) (race : RaceResult)
    (numDevices : Nat) (races : List RaceResult) (h : s.is_running = true) :
    runIteration s race numDevices = (s, [.warnBusy, .sleepSecs 30])
    ∧ IterAction.spawnEngine ∉ (runIteration s race numDevices).2
    ∧ runLoop s (race :: races) numDevices
      = ((runLoop s races numDevices).1,
          IterAction.warnBusy :: IterAction.sleepSecs 30
            :: (runLoop s races numDevices).2) := by
  have h1 : runIteration s race numDevices = (s, [.warnBusy, .sleepSecs 30]) := by
    simp [runIteration, h]
  refine ⟨h1, ?_, ?_⟩
  · rw [h1]; simp
  · simp [runLoop, h1]

/-- Witness for `busy_backoff_and_retry` on a busy state. -/
theorem busy_backoff_and_retry_witness :
    runIteration ⟨true, false⟩ (.engineDone false) 1
      = (⟨true, false⟩, [.warnBusy, .sleepSecs 30]) :=
  (busy_backoff_and_retry ⟨true, false⟩ (.engineDone false) 1 [] rfl).1

/-- C5: a recording-task error is logged and otherwise treated exactly like
normal completion: same successor state (is_running cleared, reset
performed), same actions except for the error log, and the loop simply
continues with the next pass — the error is never escalated out of the
loop. -/
theorem engine_error_like_completion (s : RecordingState) (numDevices : Nat)
    (races : List RaceResult) (h : s.is_running = false) :
    (runIteration s (.engineDone true) numDevices).1
      = (runIteration s (.engineDone false) numDevices).1
    ∧ (runIteration s (.engineDone true) numDevices).1.is_running = false
    ∧ (runIteration s (.engineDone true) numDevices).2
      = [.scheduleProducers numDevices, .spawnEngine, .logEngineError,
          .clearRunning, .logTaskEnded, .resetState]
    ∧ (runIteration s (.engineDone false) numDevices).2
      = [.scheduleProducers numDevices, .spawnEngine,
          .clearRunning, .logTaskEnded, .resetState]
    ∧ runLoop s (RaceResult.engineDone true :: races) numDevices
      = ((runLoop RecordingState.new races numDevices).1,
          IterAction.scheduleProducers numDevices :: IterAction.spawnEngine
            :: IterAction.logEngineError :: IterAction.clearRunning
            :: IterAction.logTaskEnded :: IterAction.resetState
            :: (runLoop RecordingState.new races numDevices).2) := by
  refine ⟨by simp [runIteration, h], by simp [runIteration, h, RecordingState.reset],
    by simp [runIteration, h], by simp [runIteration, h], ?_⟩
  have h1 : runIteration s (.engineDone true) numDevices
      = (RecordingState.new,
          [.scheduleProducers numDevices, .spawnEngine, .logEngineError,
            .clearRunning, .logTaskEnded, .resetState]) := by
    simp [runIteration, h, RecordingState.reset, RecordingState.new]
  simp [runLoop, h1]

/-- Witness for `engine_error_like_completion` on a fresh state. -/
theorem engine_error_like_completion_witness :
    (runIteration RecordingState.new (.engineDone true) 1).1
      = (runIteration RecordingState.new (.engineDone false) 1).1 :=
  (engine_error_like_completion RecordingState.new 1 [] rfl).1

/-- Occurrences of a label in a run. -/
def countLabel (a : SupLabel) : List SupLabel → Nat
  | [] => 0
  | b :: rest => (if b = a then 1 else 0) + countLabel a rest

/-- 0 when the supervisor sits at the loop top, 1 while it is inside an
iteration body. -/
def phase (s : Sys) : Nat := if s.pc = .atTop then 0 else 1

/-- Each step changes the phase by the difference between its start-success
and reset occurrences. -/
theorem SupStep.phase_eq {s t : Sys} {l : SupLabel} (h : SupStep s l t) :
    (if l = .startSuccess then 1 else 0) + phase s
      = (if l = .resetDone then 1 else 0) + phase t := by
  cases h with
  | busy h1 h2 => simp [phase]
  | start h1 h2 => simp [phase, h1]
  | spawnTask h1 => simp [phase, h1]
  | selectDone err h1 h2 => simp [phase, h1]
  | selectRestart h1 => simp [phase, h1]
  | curComplete h1 h2 h3 => simp [phase, h1]
  | zombie b pre post hz => simp [phase]
  | reset h1 => simp [phase, h1]

/-- Along any run, start successes and resets balance against the phase
difference of the endpoints. -/
theorem SupRun.count_eq {s t : Sys} {ls : List SupLabel} (h : SupRun s ls t) :
    countLabel .startSuccess ls + phase s = countLabel .resetDone ls + phase t := by
  induction h with
  | nil s => rfl
  | cons hstep htail ih =>
    have hp := hstep.phase_eq
    simp only [countLabel]
    omega

/-- The inductive invariant of the supervisor system: `is_running` mirrors
the `cleared` history flag; an uncleared flag means the supervisor is
mid-iteration; at the loop top or after the select, a spawned current task
is completed or cancelled; and every still-running task of an earlier
iteration was cancelled. -/
def SupInv (s : Sys) : Prop :=
  s.rs.is_running = !s.cleared
  ∧ (s.cleared = false → s.pc ≠ .atTop)
  ∧ ((s.pc = .atTop ∨ s.pc = .afterSelect) → s.curSpawned = true →
      (s.curCompleted = true ∨ s.curCancelled = true))
  ∧ (∀ b ∈ s.zombies, b = true)

/-- The invariant is preserved by every step. -/
theorem SupStep.inv_preserved {s t : Sys} {l : SupLabel}
    (hst : SupStep s l t) (hinv : SupInv s) : SupInv t := by
  obtain ⟨i1, i2, i3, i4⟩ := hinv
  cases hst with
  | busy h1 h2 => exact ⟨i1, i2, i3, i4⟩
  | start h1 h2 =>
    refine ⟨rfl, ?_, ?_, i4⟩
    · intro _; simp
    · intro hpc _; simp at hpc
  | spawnTask h1 =>
    refine ⟨i1, ?_, ?_, i4⟩
    · intro _; simp
    · intro hpc _; simp at hpc
  | selectDone err h1 h2 =>
    refine ⟨rfl, ?_, ?_, i4⟩
    · intro hcl; simp at hcl
    · intro _ _; exact Or.inl rfl
  | selectRestart h1 =>
    refine ⟨i1, ?_, ?_, i4⟩
    · intro _; simp
    · intro _ _; exact Or.inr rfl
  | curComplete h1 h2 h3 =>
    refine ⟨rfl, ?_, ?_, i4⟩
    · intro hcl; simp at hcl
    · intro _ _; exact Or.inl rfl
  | zombie b pre post hz =>
    refine ⟨rfl, ?_, i3, ?_⟩
    · intro hcl; simp at hcl
    · intro c hc
      apply i4 c
      rw [hz]
      rcases List.mem_append.mp hc with h | h
      · exact List.mem_append.mpr (Or.inl h)
      · exact List.mem_append.mpr (Or.inr (List.mem_cons_of_mem b h))
  | reset h1 =>
    refine ⟨rfl, ?_, ?_, ?_⟩
    · intro hcl; simp at hcl
    · intro _ hsp; exact i3 (Or.inr h1) hsp
    · intro c hc
      rcases List.mem_append.mp hc with h | h
      · by_cases hcond : s.curSpawned = true ∧ s.curCompleted = false
        · rw [if_pos hcond] at h
          simp at h
          subst h
          rcases i3 (Or.inr h1) hcond.1 with hcomp | hcanc
          · simp [hcond.2] at hcomp
          · exact hcanc
        · rw [if_neg hcond] at h
          simp at h
      · exact i4 c h

/-- Every reachable state satisfies the invariant. -/
theorem reachable_inv (s : Sys) (h : Reachable s) : SupInv s := by
  induction h with
  | refl =>
    refine ⟨rfl, ?_, ?_, ?_⟩
    · intro hcl; simp [Sys.init] at hcl
    · intro _ hsp; simp [Sys.init] at hsp
    · intro b hb; simp [Sys.init] at hb
  | tail _ hstep ih =>
    obtain ⟨l, hl⟩ := hstep
    exact hl.inv_preserved ih

/-- The state right after a successful start check, before the recording
task is spawned (between lines 331 and 337). -/
def afterStartSys : Sys :=
  ⟨.afterStart, ⟨true, false⟩, false, false, false, false, []⟩

/-- The state right after the recording task of the first iteration is
spawned. -/
def afterSpawnSys : Sys :=
  ⟨.afterSpawn, ⟨true, false⟩, true, false, false, false, []⟩

/-- The state after a restart signal wins the race of the first iteration
and `cancel()` runs. -/
def cancelledSys : Sys :=
  ⟨.afterSelect, ⟨true, true⟩, true, false, true, false, []⟩

/-- The state after `reset()` of the first, restart-cancelled iteration:
back at the loop top while the cancelled recording task still runs. -/
def restartedIdleSys : Sys :=
  ⟨.atTop, ⟨false, false⟩, true, false, true, true, [true]⟩

/-- The state after the second iteration starts and spawns its recording
task while the cancelled task of the first iteration still runs. -/
def twoEnginesSys : Sys :=
  ⟨.afterSpawn, ⟨true, false⟩, true, false, false, false, [true]⟩

/-- One start step reaches `afterStartSys`. -/
theorem afterStartSys_reachable : Reachable afterStartSys :=
  Relation.ReflTransGen.single ⟨.startSuccess, SupStep.start Sys.init rfl rfl⟩

/-- Start, spawn, restart-won select, reset: a full first iteration ended
by a restart signal. -/
theorem restartedIdleSys_reachable : Reachable restartedIdleSys := by
  have h2 : SupStepAny afterStartSys afterSpawnSys :=
    ⟨.spawnTask, SupStep.spawnTask afterStartSys rfl⟩
  have h3 : SupStepAny afterSpawnSys cancelledSys :=
    ⟨.selectRestart, SupStep.selectRestart afterSpawnSys rfl⟩
  have h4 : SupStepAny cancelledSys restartedIdleSys :=
    ⟨.resetDone, SupStep.reset cancelledSys rfl⟩
  exact ((afterStartSys_reachable.tail h2).tail h3).tail h4

/-- The second iteration then starts and spawns while the first
iteration's cancelled task is still live. -/
theorem twoEnginesSys_reachable : Reachable twoEnginesSys := by
  have h5 : SupStepAny restartedIdleSys
      ⟨.afterStart, ⟨true, false⟩, false, false, false, false, [true]⟩ :=
    ⟨.startSuccess, SupStep.start restartedIdleSys rfl rfl⟩
  have h6 : SupStepAny ⟨.afterStart, ⟨true, false⟩, false, false, false, false, [true]⟩
      twoEnginesSys :=
    ⟨.spawnTask,
      SupStep.spawnTask ⟨.afterStart, ⟨true, false⟩, false, false, false, false, [true]⟩ rfl⟩
  exact (restartedIdleSys_reachable.tail h5).tail h6

/-- C1 counterexample: after a restart-signal-triggered restart, two engine
tasks are live at once — the new iteration's task together with the
cancelled, not-yet-finished task of the previous iteration — so the claim
that at most one capture engine instance runs at any time, including across
restarts, is false on the code. -/
theorem two_live_engines_reachable :
    Reachable twoEnginesSys ∧ liveEngines twoEnginesSys = 2 :=
  ⟨twoEnginesSys_reachable, by decide⟩

/-- C1 (amended): between a successful start check and the matching
`reset()` no further start attempt succeeds (at most one start success per
reset window), and at most one non-cancelled engine task exists at any
time: whenever the supervisor is back at the loop top, any current task is
completed or cancelled, and every live task left over from an earlier
iteration was cancelled. -/
theorem single_start_per_reset_window :
    (∀ (s : Sys) (ls : List SupLabel) (t : Sys), SupRun s ls t →
        s.pc = .afterStart → countLabel .resetDone ls = 0 →
        countLabel .startSuccess ls = 0)
    ∧ (∀ s : Sys, Reachable s → s.pc = .atTop → s.curSpawned = true →
        s.curCompleted = true ∨ s.curCancelled = true)
    ∧ (∀ s : Sys, Reachable s → ∀ b ∈ s.zombies, b = true) := by
  refine ⟨?_, ?_, ?_⟩
  · intro s ls t hrun hpc hreset
    have hc := hrun.count_eq
    have hps : phase s = 1 := by simp [phase, hpc]
    have hpt : phase t ≤ 1 := by unfold phase; split <;> omega
    omega
  · intro s hs hpc hsp
    exact (reachable_inv s hs).2.2.1 (Or.inl hpc) hsp
  · intro s hs
    exact (reachable_inv s hs).2.2.2

/-- Witness for the single-start theorem: the empty run after a start has
no further start success, and in the concrete post-restart state the
previous task was cancelled. -/
theorem single_start_per_reset_window_witness :
    countLabel .startSuccess ([] : List SupLabel) = 0
    ∧ (restartedIdleSys.curCompleted = true ∨ restartedIdleSys.curCancelled = true)
    ∧ true = true :=
  ⟨single_start_per_reset_window.1 afterStartSys [] afterStartSys
      (SupRun.nil afterStartSys) rfl rfl,
    single_start_per_reset_window.2.1 restartedIdleSys restartedIdleSys_reachable rfl rfl,
    single_start_per_reset_window.2.2 restartedIdleSys restartedIdleSys_reachable
      true (by simp [restartedIdleSys])⟩

/-- C2 counterexample: right after the successful start check and before
the recording task is spawned, `is_running` is already true while no task
of the current iteration has been spawned — so `is_running` is not
equivalent to "a capture-engine task has been spawned for the current
iteration and has not yet reported completion". -/
theorem is_running_true_before_spawn :
    Reachable afterStartSys
    ∧ afterStartSys.rs.is_running = true
    ∧ ¬(afterStartSys.curSpawned = true ∧ afterStartSys.curCompleted = false) :=
  ⟨afterStartSys_reachable, rfl, by decide⟩

/-- C2 (amended): in every reachable state, `is_running` is true exactly
when a start check has succeeded and no write has cleared it since —
neither a task-completion write (of the current task or of a leftover
cancelled one) nor `reset()`; consequently `is_running` can only be true
strictly inside an iteration, and it is always false at the loop top. -/
theorem is_running_window (s : Sys) (h : Reachable s) :
    (s.rs.is_running = true ↔ s.cleared = false)
    ∧ (s.cleared = false → s.pc ≠ .atTop)
    ∧ (s.pc = .atTop → s.rs.is_running = false) := by
  obtain ⟨i1, i2, _, _⟩ := reachable_inv s h
  refine ⟨?_, i2, ?_⟩
  · rw [i1]; cases s.cleared <;> simp
  · intro hpc
    cases hcl : s.cleared with
    | false => exact absurd hpc (i2 hcl)
    | true => rw [i1, hcl]; rfl

/-- Witness for `is_running_window` at the state after a successful start
check. -/
theorem is_running_window_witness :
    afterStartSys.cleared = false ∧ afterStartSys.pc ≠ .atTop :=
  ⟨(is_running_window afterStartSys afterStartSys_reachable).1.mp rfl,
    (is_running_window afterStartSys afterStartSys_reachable).2.1 rfl⟩
